import Mathlib

/-!
Shallow embedding of the two-player networked Yahtzee server
(`dice.py`, `scorecard.py`, `game.py`, `gamestate.py`, `server.py`).

Randomness (`random.randint(1, 6)`) is modelled by an explicit stream
`σ : Nat → Nat` of successive values; every operation that consumes `k`
random values returns the stream advanced by `k`.  Python exceptions are
modelled by an `Except String` result returned *alongside* the state the
mutable object holds after the operation (so a partial in-place mutation
followed by a raise is representable).  Python `int` is `Int`; die faces
are `Nat`.
-/

namespace Yahtzee

/-- Stream of values produced by successive calls to `random.randint(1,6)`. -/
def RNG : Type := Nat → Nat

/-- Advance the random stream past `n` consumed values. -/
def RNG.drop (σ : RNG) (n : Nat) : RNG := fun i => σ (i + n)

/-! ### dice.py -/

structure YahtzeeDice where
  dice : List Nat
  rolls_remaining : Int
deriving Repr, DecidableEq

/-- `YahtzeeDice.__init__`: five dice all showing 1, three rolls. -/
def YahtzeeDice.init : YahtzeeDice := ⟨[1, 1, 1, 1, 1], 3⟩

/-- `YahtzeeDice.roll_all`: reroll all five dice, or raise when the
roll budget is exhausted. -/
def YahtzeeDice.roll_all (d : YahtzeeDice) (σ : RNG) :
    Except String (List Nat) × YahtzeeDice × RNG :=
  if d.rolls_remaining ≤ 0 then (.error "No rolls remaining this turn", d, σ)
  else
    let dice' := (List.range 5).foldl (fun ds i => ds.set i (σ i)) d.dice
    (.ok dice', { d with dice := dice', rolls_remaining := d.rolls_remaining - 1 }, σ.drop 5)

/-- `YahtzeeDice.roll_with_keep`: reroll the dice whose mask entry is
`false`; the mask must have exactly five entries. -/
def YahtzeeDice.roll_with_keep (d : YahtzeeDice) (keep_dice : List Bool) (σ : RNG) :
    Except String (List Nat) × YahtzeeDice × RNG :=
  if keep_dice.length ≠ 5 then
    (.error "keep_dice must have exactly 5 boolean values", d, σ)
  else if d.rolls_remaining ≤ 0 then (.error "No rolls remaining this turn", d, σ)
  else
    let step := fun (acc : List Nat × Nat) (i : Nat) =>
      if keep_dice.getD i false then acc else (acc.1.set i (σ acc.2), acc.2 + 1)
    let res := (List.range 5).foldl step (d.dice, 0)
    (.ok res.1, { d with dice := res.1, rolls_remaining := d.rolls_remaining - 1 },
      σ.drop res.2)

/-- The `for index in dice_indices` loop of `YahtzeeDice.roll_specific`:
each valid index is rerolled in order; the first out-of-range index
raises, leaving the earlier mutations in place.  Also returns how many
random values were consumed. -/
def rollSpecificLoop (dice : List Nat) (idxs : List Int) (σ : RNG) (used : Nat) :
    Except String Unit × List Nat × Nat :=
  match idxs with
  | [] => (.ok (), dice, used)
  | index :: rest =>
    if ¬ (0 ≤ index ∧ index ≤ 4) then
      (.error ("Dice index " ++ toString index ++ " out of range (0-4)"), dice, used)
    else
      rollSpecificLoop (dice.set index.toNat (σ used)) rest σ (used + 1)

/-- `YahtzeeDice.roll_specific`: reroll the dice at the given indices. -/
def YahtzeeDice.roll_specific (d : YahtzeeDice) (dice_indices : List Int) (σ : RNG) :
    Except String (List Nat) × YahtzeeDice × RNG :=
  if d.rolls_remaining ≤ 0 then (.error "No rolls remaining this turn", d, σ)
  else
    match rollSpecificLoop d.dice dice_indices σ 0 with
    | (.error e, dice', used) => (.error e, { d with dice := dice' }, σ.drop used)
    | (.ok _, dice', used) =>
      (.ok dice', { d with dice := dice', rolls_remaining := d.rolls_remaining - 1 },
        σ.drop used)

/-- `YahtzeeDice.get_dice`. -/
def YahtzeeDice.get_dice (d : YahtzeeDice) : List Nat := d.dice

/-- `YahtzeeDice.get_rolls_remaining`. -/
def YahtzeeDice.get_rolls_remaining (d : YahtzeeDice) : Int := d.rolls_remaining

/-- `YahtzeeDice.can_roll`. -/
def YahtzeeDice.can_roll (d : YahtzeeDice) : Bool := 0 < d.rolls_remaining

/-- `YahtzeeDice.start_new_turn`: reset the roll budget to 3. -/
def YahtzeeDice.start_new_turn (d : YahtzeeDice) : YahtzeeDice :=
  { d with rolls_remaining := 3 }

/-! ### scorecard.py -/

structure YahtzeeScorecard where
  ones : Option Int
  twos : Option Int
  threes : Option Int
  fours : Option Int
  fives : Option Int
  sixes : Option Int
  three_of_kind : Option Int
  four_of_kind : Option Int
  full_house : Option Int
  small_straight : Option Int
  large_straight : Option Int
  yahtzee : Option Int
  chance : Option Int
  yahtzee_bonus_count : Int
deriving Repr, DecidableEq

/-- `YahtzeeScorecard.__init__`: all thirteen categories unset, no bonus. -/
def YahtzeeScorecard.init : YahtzeeScorecard :=
  ⟨none, none, none, none, none, none, none, none, none, none, none, none, none, 0⟩

/-- `YahtzeeScorecard.get_all_scores`: the merged dictionary, upper keys
first then lower keys, in the insertion order of the source. -/
def YahtzeeScorecard.get_all_scores (sc : YahtzeeScorecard) : List (String × Option Int) :=
  [("ones", sc.ones), ("twos", sc.twos), ("threes", sc.threes), ("fours", sc.fours),
   ("fives", sc.fives), ("sixes", sc.sixes),
   ("three_of_kind", sc.three_of_kind), ("four_of_kind", sc.four_of_kind),
   ("full_house", sc.full_house), ("small_straight", sc.small_straight),
   ("large_straight", sc.large_straight), ("yahtzee", sc.yahtzee), ("chance", sc.chance)]

/-- `YahtzeeScorecard.is_category_available`: the category exists and its
slot is still `None`. -/
def YahtzeeScorecard.is_category_available (sc : YahtzeeScorecard) (category : String) : Bool :=
  match (sc.get_all_scores).lookup category with
  | some none => true
  | _ => false

/-- The list `[dice.count(1), ..., dice.count(6)]` (the source's
`counts[1:]`). -/
def countsOnly (dice : List Nat) : List Nat :=
  [dice.count 1, dice.count 2, dice.count 3, dice.count 4, dice.count 5, dice.count 6]

/-- Build an association list from guarded rows: each row `(b, k, v)`
inserts key `k` with value `v` exactly when its guard `b` holds (the
`possible_scores[category] = ...` dictionary inserts, in program order). -/
def condEntries : List (Bool × String × Int) → List (String × Int)
  | [] => []
  | e :: rest => (if e.1 then [(e.2.1, e.2.2)] else []) ++ condEntries rest

/-- `YahtzeeScorecard.calculate_possible_scores`: association list in the
source's key-insertion order, restricted to still-available categories;
raises unless exactly five dice are given. -/
def YahtzeeScorecard.calculate_possible_scores (sc : YahtzeeScorecard) (dice : List Nat) :
    Except String (List (String × Int)) :=
  if dice.length ≠ 5 then .error "Must have exactly 5 dice"
  else
    let counts := countsOnly dice
    let dice_sum : Int := (dice.sum : Int)
    .ok (condEntries [
      (sc.is_category_available "ones", "ones", ((1 : Int) * dice.count 1)),
      (sc.is_category_available "twos", "twos", ((2 : Int) * dice.count 2)),
      (sc.is_category_available "threes", "threes", ((3 : Int) * dice.count 3)),
      (sc.is_category_available "fours", "fours", ((4 : Int) * dice.count 4)),
      (sc.is_category_available "fives", "fives", ((5 : Int) * dice.count 5)),
      (sc.is_category_available "sixes", "sixes", ((6 : Int) * dice.count 6)),
      (sc.is_category_available "three_of_kind", "three_of_kind",
        if counts.any (fun c => 3 ≤ c) then dice_sum else 0),
      (sc.is_category_available "four_of_kind", "four_of_kind",
        if counts.any (fun c => 4 ≤ c) then dice_sum else 0),
      (sc.is_category_available "full_house", "full_house",
        if counts.contains 3 && counts.contains 2 && (counts.count 3 == 1) then 25 else 0),
      (sc.is_category_available "small_straight", "small_straight",
        if [[1, 2, 3, 4], [2, 3, 4, 5], [3, 4, 5, 6]].any
            (fun s => s.all (fun x => dice.contains x)) then 30 else 0),
      (sc.is_category_available "large_straight", "large_straight",
        if [[1, 2, 3, 4, 5], [2, 3, 4, 5, 6]].any
            (fun s => s.all (fun x => dice.contains x) && dice.all (fun x => s.contains x))
        then 40 else 0),
      (sc.is_category_available "yahtzee", "yahtzee",
        if counts.any (fun c => c == 5) then 50 else 0),
      (sc.is_category_available "chance", "chance", dice_sum)])

/-- Write a score into the named category's slot (the dictionary store in
`score_category`; only reachable with one of the thirteen keys). -/
def YahtzeeScorecard.setCategory (sc : YahtzeeScorecard) (category : String) (v : Int) :
    YahtzeeScorecard :=
  if category == "ones" then { sc with ones := some v }
  else if category == "twos" then { sc with twos := some v }
  else if category == "threes" then { sc with threes := some v }
  else if category == "fours" then { sc with fours := some v }
  else if category == "fives" then { sc with fives := some v }
  else if category == "sixes" then { sc with sixes := some v }
  else if category == "three_of_kind" then { sc with three_of_kind := some v }
  else if category == "four_of_kind" then { sc with four_of_kind := some v }
  else if category == "full_house" then { sc with full_house := some v }
  else if category == "small_straight" then { sc with small_straight := some v }
  else if category == "large_straight" then { sc with large_straight := some v }
  else if category == "yahtzee" then { sc with yahtzee := some v }
  else if category == "chance" then { sc with chance := some v }
  else sc

/-- `YahtzeeScorecard.score_category`: commit a category; returns `false`
without mutation when the category is unavailable or absent from the
possible scores, otherwise writes the computed score and applies the
Yahtzee-bonus side effect. -/
def YahtzeeScorecard.score_category (sc : YahtzeeScorecard) (category : String)
    (dice : List Nat) : Except String (Bool × YahtzeeScorecard) :=
  if ¬ sc.is_category_available category then .ok (false, sc)
  else
    match sc.calculate_possible_scores dice with
    | .error e => .error e
    | .ok possible_scores =>
      match possible_scores.lookup category with
      | none => .ok (false, sc)
      | some v =>
        let sc1 := sc.setCategory category v
        let sc2 :=
          if category == "yahtzee" then sc1
          else if ((countsOnly dice).foldl max 0 == 5) && (sc1.yahtzee == some 50) then
            { sc1 with yahtzee_bonus_count := sc1.yahtzee_bonus_count + 1 }
          else sc1
        .ok (true, sc2)

/-- Sum of the committed (non-`None`) entries of a list of slots. -/
def sumCommitted (l : List (Option Int)) : Int := (l.filterMap id).sum

/-- `YahtzeeScorecard.calculate_upper_total`. -/
def YahtzeeScorecard.calculate_upper_total (sc : YahtzeeScorecard) : Int :=
  sumCommitted [sc.ones, sc.twos, sc.threes, sc.fours, sc.fives, sc.sixes]

/-- `YahtzeeScorecard.calculate_upper_bonus`: 35 when the upper total
reaches 63. -/
def YahtzeeScorecard.calculate_upper_bonus (sc : YahtzeeScorecard) : Int :=
  if 63 ≤ sc.calculate_upper_total then 35 else 0

/-- `YahtzeeScorecard.calculate_lower_total`. -/
def YahtzeeScorecard.calculate_lower_total (sc : YahtzeeScorecard) : Int :=
  sumCommitted [sc.three_of_kind, sc.four_of_kind, sc.full_house, sc.small_straight,
    sc.large_straight, sc.yahtzee, sc.chance]

/-- `YahtzeeScorecard.calculate_yahtzee_bonus`: 100 points per extra
Yahtzee. -/
def YahtzeeScorecard.calculate_yahtzee_bonus (sc : YahtzeeScorecard) : Int :=
  sc.yahtzee_bonus_count * 100

/-- `YahtzeeScorecard.calculate_grand_total`. -/
def YahtzeeScorecard.calculate_grand_total (sc : YahtzeeScorecard) : Int :=
  sc.calculate_upper_total + sc.calculate_upper_bonus +
    sc.calculate_lower_total + sc.calculate_yahtzee_bonus

/-- `YahtzeeScorecard.is_complete`: every category committed. -/
def YahtzeeScorecard.is_complete (sc : YahtzeeScorecard) : Bool :=
  (sc.get_all_scores).all (fun p => p.2.isSome)

/-- `YahtzeeScorecard.get_available_categories`. -/
def YahtzeeScorecard.get_available_categories (sc : YahtzeeScorecard) : List String :=
  (sc.get_all_scores).filterMap (fun p => if p.2 = none then some p.1 else none)

/-! ### game.py -/

structure YahtzeeGame where
  player_name : String
  scorecard : YahtzeeScorecard
  dice : YahtzeeDice
  current_turn : Int
  max_turns : Int
  game_complete : Bool
deriving Repr, DecidableEq

/-- `YahtzeeGame.__init__`. -/
def YahtzeeGame.init (player_name : String) : YahtzeeGame :=
  ⟨player_name, YahtzeeScorecard.init, YahtzeeDice.init, 1, 13, false⟩

/-- `YahtzeeGame.start_new_turn`: raise when complete, otherwise reset the
roll budget and roll all five dice. -/
def YahtzeeGame.start_new_turn (g : YahtzeeGame) (σ : RNG) :
    Except String Unit × YahtzeeGame × RNG :=
  if g.game_complete then (.error "Game is already complete", g, σ)
  else
    match (g.dice.start_new_turn).roll_all σ with
    | (.error e, d2, σ2) => (.error e, { g with dice := d2 }, σ2)
    | (.ok _, d2, σ2) => (.ok (), { g with dice := d2 }, σ2)

/-- `YahtzeeGame.roll_dice`: roll all dice, or roll with a keep mask. -/
def YahtzeeGame.roll_dice (g : YahtzeeGame) (keep_dice : Option (List Bool)) (σ : RNG) :
    Except String (List Nat) × YahtzeeGame × RNG :=
  if g.game_complete then (.error "Game is already complete", g, σ)
  else
    match keep_dice with
    | none =>
      match g.dice.roll_all σ with
      | (r, d2, σ2) => (r, { g with dice := d2 }, σ2)
    | some keep =>
      match g.dice.roll_with_keep keep σ with
      | (r, d2, σ2) => (r, { g with dice := d2 }, σ2)

/-- `YahtzeeGame.score_category`: commit against the scorecard; on success
advance the turn counter and either complete the game or start the next
turn (which performs the implicit first roll). -/
def YahtzeeGame.score_category (g : YahtzeeGame) (category : String) (σ : RNG) :
    Except String Bool × YahtzeeGame × RNG :=
  if g.game_complete then (.ok false, g, σ)
  else
    match g.scorecard.score_category category g.dice.get_dice with
    | .error e => (.error e, g, σ)
    | .ok (success, sc2) =>
      if success then
        let g1 := { g with scorecard := sc2, current_turn := g.current_turn + 1 }
        if g1.max_turns < g1.current_turn || sc2.is_complete then
          (.ok true, { g1 with game_complete := true }, σ)
        else
          match g1.start_new_turn σ with
          | (.error e, g2, σ2) => (.error e, g2, σ2)
          | (.ok _, g2, σ2) => (.ok true, g2, σ2)
      else (.ok false, { g with scorecard := sc2 }, σ)

/-- `YahtzeeGame.get_current_score`. -/
def YahtzeeGame.get_current_score (g : YahtzeeGame) : Int :=
  g.scorecard.calculate_grand_total

/-! ### gamestate.py and the command dispatch of server.py -/

structure GameState where
  room_code : String
  players : List String
  /-- the `scores` dict, as an association list in insertion (join) order -/
  scores : List (String × YahtzeeGame)
  turn_index : Int
  ready : Bool
  final_scores : List (String × Int)
  winner : Option String
  /-- the `keep` attribute the server adds dynamically; absent at first -/
  keep : Option (List Bool)
deriving Repr, DecidableEq

/-- `GameState.__init__`. -/
def GameState.init (room_code : String) : GameState :=
  ⟨room_code, [], [], 0, false, [], none, none⟩

/-- `GameState.current_player`: `players[turn_index]`. -/
def GameState.current_player (room : GameState) : Option String :=
  room.players.get? room.turn_index.toNat

/-- `GameState.next_turn`: cyclic increment of `turn_index`. -/
def GameState.next_turn (room : GameState) : GameState :=
  { room with turn_index := (room.turn_index + 1) % (room.players.length : Int) }

/-- The room produced by a `create` request (server.py). -/
def create_room (room_code name : String) : GameState :=
  { room_code := room_code, players := [name], scores := [(name, YahtzeeGame.init name)],
    turn_index := 0, ready := false, final_scores := [], winner := none, keep := none }

/-- A successful `join` request on a non-full room (server.py). -/
def join_room (room : GameState) (name : String) : GameState :=
  { room with
      players := room.players ++ [name],
      scores := room.scores ++ [(name, YahtzeeGame.init name)],
      ready := true }

/-- Update the `scores` dict at an existing key (Python in-place dict
write; insertion order is preserved). -/
def updateScores (scores : List (String × YahtzeeGame)) (player : String)
    (g : YahtzeeGame) : List (String × YahtzeeGame) :=
  scores.map (fun p => if p.1 == player then (p.1, g) else p)

/-- `all(gm.game_complete for gm in scores.values())`. -/
def allDone (scores : List (String × YahtzeeGame)) : Bool :=
  scores.all (fun p => p.2.game_complete)

/-- `{p: g.get_current_score() for p, g in scores.items()}`. -/
def totals (scores : List (String × YahtzeeGame)) : List (String × Int) :=
  scores.map (fun p => (p.1, p.2.get_current_score))

/-- Tail of Python's `max(d, key=d.get)` over an association list: keeps
the current best and replaces it only on a strictly greater value, so the
first key attaining the maximum wins. -/
def pyMaxKeyGo (bk : String) (bv : Int) : List (String × Int) → String
  | [] => bk
  | (k, v) :: rest => if bv < v then pyMaxKeyGo k v rest else pyMaxKeyGo bk bv rest

/-- Python's `max(d, key=d.get)` over an association list in iteration
order (`none` on the empty dict, where Python raises). -/
def pyMaxKey : List (String × Int) → Option String
  | [] => none
  | (k, v) :: rest => some (pyMaxKeyGo k v rest)

/-- The `command` branch of `client` in server.py: dispatch a `roll` or
`score` command named for `player` against the room.  No turn-order check
is performed; after any `score` command the dice lock is reset and
`next_turn` runs unconditionally, then the end-of-game check assigns
`winner` and `final_scores` when every game is complete. -/
def handle_command (room : GameState) (player : String) (command : String)
    (keep : List Bool) (category : String) (σ : RNG) :
    Except String Unit × GameState × RNG :=
  match room.scores.lookup player with
  | none => (.error "KeyError", room, σ)
  | some game =>
    if command == "roll" then
      match game.roll_dice (some keep) σ with
      | (.error e, g2, σ2) =>
        (.error e, { room with scores := updateScores room.scores player g2 }, σ2)
      | (.ok _, g2, σ2) =>
        (.ok (), { room with scores := updateScores room.scores player g2 }, σ2)
    else if command == "score" then
      match game.score_category category σ with
      | (.error e, g2, σ2) =>
        (.error e, { room with scores := updateScores room.scores player g2 }, σ2)
      | (.ok _, g2, σ2) =>
        let room1 := { room with
          scores := updateScores room.scores player g2,
          keep := some [false, false, false, false, false] }
        let room2 := room1.next_turn
        let room3 :=
          if allDone room2.scores then
            let s := totals room2.scores
            { room2 with winner := pyMaxKey s, final_scores := s }
          else room2
        (.ok (), room3, σ2)
    else (.ok (), room, σ)

/-! ### Derived forms of the possible-score table -/

/-- The thirteen fixed category names, in scorecard order. -/
def categoryNames : List String :=
  ["ones", "twos", "threes", "fours", "fives", "sixes", "three_of_kind", "four_of_kind",
   "full_house", "small_straight", "large_straight", "yahtzee", "chance"]

/-- The score `calculate_possible_scores` computes for one category. -/
def catScore (category : String) (dice : List Nat) : Int :=
  let counts := countsOnly dice
  let dice_sum : Int := (dice.sum : Int)
  if category == "ones" then (1 : Int) * dice.count 1
  else if category == "twos" then (2 : Int) * dice.count 2
  else if category == "threes" then (3 : Int) * dice.count 3
  else if category == "fours" then (4 : Int) * dice.count 4
  else if category == "fives" then (5 : Int) * dice.count 5
  else if category == "sixes" then (6 : Int) * dice.count 6
  else if category == "three_of_kind" then
    if counts.any (fun c => 3 ≤ c) then dice_sum else 0
  else if category == "four_of_kind" then
    if counts.any (fun c => 4 ≤ c) then dice_sum else 0
  else if category == "full_house" then
    if counts.contains 3 && counts.contains 2 && (counts.count 3 == 1) then 25 else 0
  else if category == "small_straight" then
    if [[1, 2, 3, 4], [2, 3, 4, 5], [3, 4, 5, 6]].any
        (fun s => s.all (fun x => dice.contains x)) then 30 else 0
  else if category == "large_straight" then
    if [[1, 2, 3, 4, 5], [2, 3, 4, 5, 6]].any
        (fun s => s.all (fun x => dice.contains x) && dice.all (fun x => s.contains x))
    then 40 else 0
  else if category == "yahtzee" then
    if counts.any (fun c => c == 5) then 50 else 0
  else if category == "chance" then dice_sum
  else 0

/-- Looking a category up in the possible-score table (`none` both when
the dice are malformed and when the category is absent). -/
def lookupPossible (sc : YahtzeeScorecard) (dice : List Nat) (c : String) : Option Int :=
  match sc.calculate_possible_scores dice with
  | .ok l => l.lookup c
  | .error _ => none

/-- Looking up a key in a guarded-row table: the first row whose guard
holds and whose key matches wins. -/
def lookupBlocks (c : String) : List (Bool × String × Int) → Option Int
  | [] => none
  | e :: rest => if e.1 && (c == e.2.1) then some e.2.2 else lookupBlocks c rest

/-- The scorecard produced by a successful `score_category` commit: the
category slot is written, then the Yahtzee-bonus side effect applies. -/
def scoreResult (sc : YahtzeeScorecard) (category : String) (dice : List Nat) :
    YahtzeeScorecard :=
  let sc1 := sc.setCategory category (catScore category dice)
  if category == "yahtzee" then sc1
  else if ((countsOnly dice).foldl max 0 == 5) && (sc1.yahtzee == some 50) then
    { sc1 with yahtzee_bonus_count := sc1.yahtzee_bonus_count + 1 }
  else sc1

/-- The claim's full-house condition: some face value occurs exactly three
times, exactly one value does so, and another face value occurs exactly
twice. -/
def fullHouseSpec (dice : List Nat) : Prop :=
  ∃ v, dice.count v = 3 ∧ (∀ w, dice.count w = 3 → w = v) ∧
    ∃ w, w ≠ v ∧ dice.count w = 2

/-- The spec's winner rule: the first player in join order whose total is
at least every later total (equivalently, the earliest player attaining
the maximal total). -/
def firstArgmax : List (String × Int) → Option String
  | [] => none
  | (k, v) :: rest => if rest.all (fun kv => kv.2 ≤ v) then some k else firstArgmax rest

/-- The room state produced by a dispatched `score` command whose
game-level call returned `g2`. -/
def scoreDispatchResult (room : GameState) (player : String) (g2 : YahtzeeGame) :
    GameState :=
  let room1 := { room with
    scores := updateScores room.scores player g2,
    keep := some [false, false, false, false, false] }
  let room2 := room1.next_turn
  if allDone room2.scores then
    { room2 with
      winner := pyMaxKey (totals room2.scores),
      final_scores := totals room2.scores }
  else room2

/-- A completed game for player "A" (empty scorecard, flag set). -/
def gameA_done : YahtzeeGame :=
  { player_name := "A", scorecard := YahtzeeScorecard.init, dice := YahtzeeDice.init,
    current_turn := 14, max_turns := 13, game_complete := true }

/-- Player "B"'s scorecard with every category but `chance` committed. -/
def scB12 : YahtzeeScorecard :=
  ⟨some 0, some 0, some 0, some 0, some 0, some 0, some 0, some 0, some 0, some 0,
    some 0, some 0, none, 0⟩

/-- Player "B" on their last turn. -/
def gameB_last : YahtzeeGame :=
  { player_name := "B", scorecard := scB12, dice := YahtzeeDice.init,
    current_turn := 13, max_turns := 13, game_complete := false }

/-- A room where "A" has finished and "B" has one commit left. -/
def roomLast : GameState :=
  { room_code := "1234", players := ["A", "B"],
    scores := [("A", gameA_done), ("B", gameB_last)],
    turn_index := 1, ready := true, final_scores := [], winner := none, keep := none }

theorem lookup_condEntries (c : String) (l : List (Bool × String × Int)) :
    List.lookup c (condEntries l) = lookupBlocks c l := by
  induction l with
  | nil => rfl
  | cons e rest ih =>
    obtain ⟨b, k, v⟩ := e
    cases b
    · simpa [condEntries, lookupBlocks] using ih
    · by_cases hck : c = k
      · subst hck; simp [condEntries, lookupBlocks, List.lookup_cons]
      · have hb : (c == k) = false := beq_eq_false_iff_ne.mpr hck
        simp [condEntries, lookupBlocks, List.lookup_cons, hb, ih]

/-- Characterisation of the possible-score table: a category is present
exactly when it is still available, and its value is `catScore`. -/
theorem lookupPossible_eq (sc : YahtzeeScorecard) (dice : List Nat) (c : String)
    (h5 : dice.length = 5) :
    lookupPossible sc dice c =
      if sc.is_category_available c then some (catScore c dice) else none := by
  unfold lookupPossible YahtzeeScorecard.calculate_possible_scores
  rw [if_neg (by omega)]
  simp only [lookup_condEntries]
  by_cases h1 : c = "ones"
  · subst h1; simp [lookupBlocks, catScore]
  by_cases h2 : c = "twos"
  · subst h2; simp [lookupBlocks, catScore]
  by_cases h3 : c = "threes"
  · subst h3; simp [lookupBlocks, catScore]
  by_cases h4 : c = "fours"
  · subst h4; simp [lookupBlocks, catScore]
  by_cases h5' : c = "fives"
  · subst h5'; simp [lookupBlocks, catScore]
  by_cases h6 : c = "sixes"
  · subst h6; simp [lookupBlocks, catScore]
  by_cases h7 : c = "three_of_kind"
  · subst h7; simp [lookupBlocks, catScore]
  by_cases h8 : c = "four_of_kind"
  · subst h8; simp [lookupBlocks, catScore]
  by_cases h9 : c = "full_house"
  · subst h9; simp [lookupBlocks, catScore]
  by_cases h10 : c = "small_straight"
  · subst h10; simp [lookupBlocks, catScore]
  by_cases h11 : c = "large_straight"
  · subst h11; simp [lookupBlocks, catScore]
  by_cases h12 : c = "yahtzee"
  · subst h12; simp [lookupBlocks, catScore]
  by_cases h13 : c = "chance"
  · subst h13; simp [lookupBlocks, catScore]
  · have hnone : sc.is_category_available c = false := by
      unfold YahtzeeScorecard.is_category_available YahtzeeScorecard.get_all_scores
      simp [List.lookup_cons, beq_eq_false_iff_ne.mpr h1, beq_eq_false_iff_ne.mpr h2,
        beq_eq_false_iff_ne.mpr h3, beq_eq_false_iff_ne.mpr h4, beq_eq_false_iff_ne.mpr h5',
        beq_eq_false_iff_ne.mpr h6, beq_eq_false_iff_ne.mpr h7, beq_eq_false_iff_ne.mpr h8,
        beq_eq_false_iff_ne.mpr h9, beq_eq_false_iff_ne.mpr h10, beq_eq_false_iff_ne.mpr h11,
        beq_eq_false_iff_ne.mpr h12, beq_eq_false_iff_ne.mpr h13]
    rw [hnone]
    simp [lookupBlocks, beq_eq_false_iff_ne.mpr h1, beq_eq_false_iff_ne.mpr h2,
      beq_eq_false_iff_ne.mpr h3, beq_eq_false_iff_ne.mpr h4, beq_eq_false_iff_ne.mpr h5',
      beq_eq_false_iff_ne.mpr h6, beq_eq_false_iff_ne.mpr h7, beq_eq_false_iff_ne.mpr h8,
      beq_eq_false_iff_ne.mpr h9, beq_eq_false_iff_ne.mpr h10, beq_eq_false_iff_ne.mpr h11,
      beq_eq_false_iff_ne.mpr h12, beq_eq_false_iff_ne.mpr h13]

/-- Availability is exactly: the category's slot exists and holds `None`. -/
theorem avail_iff_lookup (sc : YahtzeeScorecard) (c : String) :
    sc.is_category_available c = true ↔ (sc.get_all_scores).lookup c = some none := by
  unfold YahtzeeScorecard.is_category_available
  rcases h : (sc.get_all_scores).lookup c with _ | v
  · simp [h]
  · rcases v with _ | s <;> simp [h]

/-- An available category is one of the thirteen fixed names. -/
theorem avail_mem (sc : YahtzeeScorecard) (c : String)
    (h : sc.is_category_available c = true) : c ∈ categoryNames := by
  by_contra hc
  have hll : (sc.get_all_scores).lookup c = none := by
    simp only [categoryNames, List.mem_cons, List.not_mem_nil, or_false, not_or] at hc
    obtain ⟨n1, n2, n3, n4, n5, n6, n7, n8, n9, n10, n11, n12, n13⟩ := hc
    unfold YahtzeeScorecard.get_all_scores
    simp [List.lookup_cons, beq_eq_false_iff_ne.mpr n1, beq_eq_false_iff_ne.mpr n2,
      beq_eq_false_iff_ne.mpr n3, beq_eq_false_iff_ne.mpr n4, beq_eq_false_iff_ne.mpr n5,
      beq_eq_false_iff_ne.mpr n6, beq_eq_false_iff_ne.mpr n7, beq_eq_false_iff_ne.mpr n8,
      beq_eq_false_iff_ne.mpr n9, beq_eq_false_iff_ne.mpr n10, beq_eq_false_iff_ne.mpr n11,
      beq_eq_false_iff_ne.mpr n12, beq_eq_false_iff_ne.mpr n13]
  rw [avail_iff_lookup, hll] at h
  exact Option.noConfusion h


/-- An unavailable (committed or nonexistent) category commits as a
rejected no-op, whatever the dice. -/
theorem score_category_unavail (sc : YahtzeeScorecard) (c : String) (dice : List Nat)
    (ha : sc.is_category_available c = false) :
    sc.score_category c dice = .ok (false, sc) := by
  unfold YahtzeeScorecard.score_category
  rw [if_pos (by simp [ha])]

/-- With five dice, `calculate_possible_scores` succeeds and its table is
characterised by availability and `catScore`. -/
theorem calc_ok (sc : YahtzeeScorecard) (dice : List Nat) (h5 : dice.length = 5) :
    ∃ l, sc.calculate_possible_scores dice = .ok l ∧
      ∀ c, l.lookup c =
        if sc.is_category_available c then some (catScore c dice) else none := by
  cases hcalc : sc.calculate_possible_scores dice with
  | error e =>
    exfalso
    unfold YahtzeeScorecard.calculate_possible_scores at hcalc
    rw [if_neg (by omega)] at hcalc
    exact Except.noConfusion hcalc
  | ok l =>
    refine ⟨l, rfl, fun c => ?_⟩
    have h := lookupPossible_eq sc dice c h5
    unfold lookupPossible at h
    rw [hcalc] at h
    exact h

/-- Full characterisation of `score_category` on five dice. -/
theorem score_category_eq (sc : YahtzeeScorecard) (c : String) (dice : List Nat)
    (h5 : dice.length = 5) :
    sc.score_category c dice =
      if sc.is_category_available c then .ok (true, scoreResult sc c dice)
      else .ok (false, sc) := by
  by_cases ha : sc.is_category_available c
  · obtain ⟨l, hl, hlook⟩ := calc_ok sc dice h5
    have hv := hlook c
    rw [if_pos ha] at hv
    unfold YahtzeeScorecard.score_category
    rw [if_neg (by simp [ha]), if_pos ha]
    simp only [hl, hv]
    rfl
  · rw [score_category_unavail sc c dice (by simpa using ha),
      if_neg (by simpa using ha)]

/-- Writing a category's slot makes that category unavailable. -/
theorem avail_setCategory (sc : YahtzeeScorecard) (c : String) (v : Int)
    (hm : c ∈ categoryNames) :
    (sc.setCategory c v).is_category_available c = false := by
  simp only [categoryNames, List.mem_cons, List.not_mem_nil, or_false] at hm
  rcases hm with rfl | rfl | rfl | rfl | rfl | rfl | rfl | rfl | rfl | rfl | rfl | rfl | rfl <;>
    simp [YahtzeeScorecard.setCategory, YahtzeeScorecard.is_category_available,
      YahtzeeScorecard.get_all_scores, List.lookup_cons]

/-- After a successful commit, the committed category is no longer
available (the bonus-counter update leaves the slots untouched). -/
theorem avail_scoreResult (sc : YahtzeeScorecard) (c : String) (dice : List Nat)
    (ha : sc.is_category_available c = true) :
    (scoreResult sc c dice).is_category_available c = false := by
  have h1 := avail_setCategory sc c (catScore c dice) (avail_mem sc c ha)
  simp only [scoreResult]
  split_ifs <;> exact h1

/-! ### Claims about the scoring engine -/

/-- C9: for every scorecard state and five-die roll, the possible-score
table has a key for a category exactly when that category is one of the
thirteen fixed names and is not yet committed; an uncommitted `chance`
always maps to the sum of the faces. -/
theorem C9_possible_scores_keys (sc : YahtzeeScorecard) (dice : List Nat) (c : String)
    (h5 : dice.length = 5) :
    ((lookupPossible sc dice c).isSome = true ↔
      (c ∈ categoryNames ∧ (sc.get_all_scores).lookup c = some none)) ∧
    (sc.chance = none → lookupPossible sc dice "chance" = some ((dice.sum : Nat) : Int)) := by
  constructor
  · rw [lookupPossible_eq sc dice c h5]
    by_cases ha : sc.is_category_available c
    · simp only [if_pos ha, Option.isSome_some]
      exact ⟨fun _ => ⟨avail_mem sc c ha, (avail_iff_lookup sc c).mp ha⟩, fun _ => by trivial⟩
    · have ha' : sc.is_category_available c = false := by simpa using ha
      simp only [if_neg ha, Option.isSome_none]
      constructor
      · intro h
        exact absurd h (by simp)
      · rintro ⟨-, hl⟩
        rw [(avail_iff_lookup sc c).mpr hl] at ha'
        exact Bool.noConfusion ha'
  · intro hch
    have ha : sc.is_category_available "chance" = true := by
      rw [avail_iff_lookup]
      unfold YahtzeeScorecard.get_all_scores
      simp [List.lookup_cons, hch]
    rw [lookupPossible_eq sc dice "chance" h5, if_pos ha]
    simp [catScore]

/-- C9 witness: on a fresh scorecard and the roll `[1,2,3,4,5]`, `chance`
is offered at the sum 15. -/
theorem C9_witness :
    lookupPossible YahtzeeScorecard.init [1, 2, 3, 4, 5] "chance" = some 15 := by
  have h := (C9_possible_scores_keys YahtzeeScorecard.init [1, 2, 3, 4, 5] "chance"
    (by decide)).2 rfl
  simpa using h

/-- C8: committing an already-committed (or nonexistent) category returns
`false` and changes nothing on the scorecard; in particular a second
commit of the same category fails and preserves the state left by the
first. -/
theorem C8_commit_idempotent (sc : YahtzeeScorecard) (c : String) (dice dice2 : List Nat)
    (h5 : dice.length = 5) :
    (((sc.get_all_scores).lookup c = none ∨
        (∃ v, (sc.get_all_scores).lookup c = some (some v))) →
      sc.score_category c dice2 = .ok (false, sc)) ∧
    (∀ sc2, sc.score_category c dice = .ok (true, sc2) →
      sc2.score_category c dice2 = .ok (false, sc2)) := by
  constructor
  · intro h
    refine score_category_unavail sc c dice2 ?_
    rcases hb : sc.is_category_available c with _ | _
    · rfl
    · exfalso
      have := (avail_iff_lookup sc c).mp hb
      rcases h with h | ⟨v, h⟩ <;> rw [h] at this <;> simp at this
  · intro sc2 hsucc
    by_cases ha : sc.is_category_available c
    · rw [score_category_eq sc c dice h5, if_pos ha] at hsucc
      have h2 : scoreResult sc c dice = sc2 := by
        simpa using hsucc
      subst h2
      exact score_category_unavail _ c dice2 (avail_scoreResult sc c dice ha)
    · rw [score_category_unavail sc c dice (by simpa using ha)] at hsucc
      simp at hsucc

/-- C8 witness: committing `chance` twice; the second call fails and the
first commit's score survives. -/
theorem C8_witness :
    YahtzeeScorecard.init.score_category "chance" [1, 1, 1, 1, 1] =
        .ok (true, { YahtzeeScorecard.init with chance := some 5 }) ∧
    ({ YahtzeeScorecard.init with chance := some 5 } : YahtzeeScorecard).score_category
        "chance" [2, 2, 2, 2, 2] =
      .ok (false, { YahtzeeScorecard.init with chance := some 5 }) := by
  refine ⟨rfl, ?_⟩
  exact (C8_commit_idempotent YahtzeeScorecard.init "chance" [1, 1, 1, 1, 1]
    [2, 2, 2, 2, 2] (by decide)).2 _ rfl

/-- C3 counterexample: with the yahtzee slot already committed at 50,
committing the faces `[5,5,5,5,2]` (not a five-of-a-kind) to `chance`
succeeds but leaves `yahtzee_bonus_count` at 0 rather than incrementing
it to 1 as the claim states. -/
theorem C3_counterexample :
    (({ YahtzeeScorecard.init with yahtzee := some 50 } : YahtzeeScorecard).score_category
        "chance" [5, 5, 5, 5, 2]).map (fun p => (p.1, p.2.yahtzee_bonus_count)) =
      .ok (true, 0) ∧ (0 : Int) ≠ 1 :=
  ⟨rfl, by decide⟩

/-- C3 (amended): with the yahtzee slot committed at 50 and `chance`
open, committing `[5,5,5,5,2]` to `chance` succeeds without touching the
bonus counter, while committing the five-of-a-kind `[5,5,5,5,5]` to
`chance` succeeds, increments `yahtzee_bonus_count` by 1 and adds 100 to
the Yahtzee-bonus component of the grand total. -/
theorem C3_yahtzee_bonus (sc : YahtzeeScorecard)
    (hy : sc.yahtzee = some 50) (hc : sc.chance = none) :
    (∃ sc2, sc.score_category "chance" [5, 5, 5, 5, 2] = .ok (true, sc2) ∧
      sc2.yahtzee_bonus_count = sc.yahtzee_bonus_count ∧ sc2.chance = some 22) ∧
    (∃ sc3, sc.score_category "chance" [5, 5, 5, 5, 5] = .ok (true, sc3) ∧
      sc3.yahtzee_bonus_count = sc.yahtzee_bonus_count + 1 ∧
      sc3.calculate_yahtzee_bonus = sc.calculate_yahtzee_bonus + 100 ∧
      sc3.chance = some 25) := by
  have ha : sc.is_category_available "chance" = true := by
    rw [avail_iff_lookup]
    unfold YahtzeeScorecard.get_all_scores
    simp [List.lookup_cons, hc]
  constructor
  · refine ⟨scoreResult sc "chance" [5, 5, 5, 5, 2], ?_, ?_, ?_⟩
    · rw [score_category_eq sc "chance" [5, 5, 5, 5, 2] (by decide), if_pos ha]
    · simp [scoreResult, YahtzeeScorecard.setCategory, countsOnly]
    · simp [scoreResult, YahtzeeScorecard.setCategory, countsOnly, catScore]
  · refine ⟨scoreResult sc "chance" [5, 5, 5, 5, 5], ?_, ?_, ?_, ?_⟩
    · rw [score_category_eq sc "chance" [5, 5, 5, 5, 5] (by decide), if_pos ha]
    · simp [scoreResult, YahtzeeScorecard.setCategory, countsOnly, hy]
    · simp [scoreResult, YahtzeeScorecard.setCategory, countsOnly, hy,
        YahtzeeScorecard.calculate_yahtzee_bonus]
      ring
    · simp [scoreResult, YahtzeeScorecard.setCategory, countsOnly, catScore, hy]

/-- C3 witness: the amended bonus behaviour at a concrete scorecard. -/
theorem C3_witness :
    (∃ sc2, ({ YahtzeeScorecard.init with yahtzee := some 50 } :
          YahtzeeScorecard).score_category "chance" [5, 5, 5, 5, 2] = .ok (true, sc2) ∧
      sc2.yahtzee_bonus_count =
        ({ YahtzeeScorecard.init with yahtzee := some 50 } :
          YahtzeeScorecard).yahtzee_bonus_count ∧
      sc2.chance = some 22) ∧
    (∃ sc3, ({ YahtzeeScorecard.init with yahtzee := some 50 } :
          YahtzeeScorecard).score_category "chance" [5, 5, 5, 5, 5] = .ok (true, sc3) ∧
      sc3.yahtzee_bonus_count =
        ({ YahtzeeScorecard.init with yahtzee := some 50 } :
          YahtzeeScorecard).yahtzee_bonus_count + 1 ∧
      sc3.calculate_yahtzee_bonus =
        ({ YahtzeeScorecard.init with yahtzee := some 50 } :
          YahtzeeScorecard).calculate_yahtzee_bonus + 100 ∧
      sc3.chance = some 25) :=
  C3_yahtzee_bonus { YahtzeeScorecard.init with yahtzee := some 50 } rfl rfl

/-! ### The full-house rule (C4) -/

/-- Every die face lies in 1..6, so the six counts partition the hand. -/
theorem sum_counts (dice : List Nat) (hr : ∀ x ∈ dice, 1 ≤ x ∧ x ≤ 6) :
    dice.count 1 + dice.count 2 + dice.count 3 + dice.count 4 + dice.count 5 +
      dice.count 6 = dice.length := by
  induction dice with
  | nil => simp
  | cons a t ih =>
    have ih2 := ih (fun x hx => hr x (by simp [hx]))
    obtain ⟨ha1, ha6⟩ := hr a (by simp)
    interval_cases a <;> simp [List.count_cons] <;> omega

theorem mem_countsOnly {dice : List Nat} {x : Nat} :
    x ∈ countsOnly dice ↔ ∃ v, (1 ≤ v ∧ v ≤ 6) ∧ dice.count v = x := by
  constructor
  · intro h
    simp only [countsOnly, List.mem_cons, List.not_mem_nil, or_false] at h
    rcases h with h | h | h | h | h | h
    exacts [⟨1, by omega, h.symm⟩, ⟨2, by omega, h.symm⟩, ⟨3, by omega, h.symm⟩,
      ⟨4, by omega, h.symm⟩, ⟨5, by omega, h.symm⟩, ⟨6, by omega, h.symm⟩]
  · rintro ⟨v, ⟨h1, h6⟩, rfl⟩
    interval_cases v <;> simp [countsOnly]

/-- With only five dice, a count of 3 can occur for at most one face, so
once some face counts 3 the list of counts holds exactly one 3. -/
theorem count3_of_mem {dice : List Nat} (h5 : dice.length = 5)
    (hr : ∀ x ∈ dice, 1 ≤ x ∧ x ≤ 6) (h3 : 3 ∈ countsOnly dice) :
    (countsOnly dice).count 3 = 1 := by
  have hsum := sum_counts dice hr
  rw [h5] at hsum
  simp only [countsOnly, List.mem_cons, List.not_mem_nil, or_false] at h3
  simp only [countsOnly, List.count_cons, List.count_nil, beq_iff_eq]
  rcases h3 with h | h | h | h | h | h <;> split_ifs <;> omega


/-- The code's boolean full-house test agrees with the spec condition. -/
theorem fullHouse_cond_iff (dice : List Nat) (h5 : dice.length = 5)
    (hr : ∀ x ∈ dice, 1 ≤ x ∧ x ≤ 6) :
    (((countsOnly dice).contains 3 && (countsOnly dice).contains 2 &&
      ((countsOnly dice).count 3 == 1)) = true) ↔ fullHouseSpec dice := by
  have hsum := sum_counts dice hr
  rw [h5] at hsum
  constructor
  · intro h
    simp only [List.contains, List.elem_eq_mem, decide_eq_true_eq, Bool.and_eq_true,
      beq_iff_eq] at h
    obtain ⟨⟨h3, h2⟩, -⟩ := h
    obtain ⟨v, ⟨hv1, hv6⟩, hv⟩ := mem_countsOnly.mp h3
    obtain ⟨w, ⟨hw1, hw6⟩, hw⟩ := mem_countsOnly.mp h2
    refine ⟨v, hv, ?_, w, ?_, hw⟩
    · intro u hu
      obtain ⟨hu1, hu6⟩ := hr u (List.count_pos_iff.mp (by omega))
      interval_cases u <;> interval_cases v <;> omega
    · intro hEq
      rw [hEq] at hw
      omega
  · rintro ⟨v, hv, huniq, w, hwv, hw⟩
    have hvb := hr v (List.count_pos_iff.mp (by omega))
    have hwb := hr w (List.count_pos_iff.mp (by omega))
    have h3 : (3 : Nat) ∈ countsOnly dice := mem_countsOnly.mpr ⟨v, hvb, hv⟩
    have h2 : (2 : Nat) ∈ countsOnly dice := mem_countsOnly.mpr ⟨w, hwb, hw⟩
    simp only [List.contains, List.elem_eq_mem, decide_eq_true_eq, Bool.and_eq_true,
      beq_iff_eq]
    exact ⟨⟨h3, h2⟩, count3_of_mem h5 hr h3⟩

/-- A five-of-a-kind hand has no face counting exactly three. -/
theorem fiveKind_not_fullHouse {dice : List Nat} (h5 : dice.length = 5)
    (hk : ∃ v, dice.count v = 5) : ¬ fullHouseSpec dice := by
  obtain ⟨v, hv⟩ := hk
  rintro ⟨u, hu3, -, -⟩
  have hmemu : u ∈ dice := List.count_pos_iff.mp (by omega)
  have hall : ∀ b ∈ dice, v = b := by
    rw [← List.count_eq_length]
    omega
  have huv : u = v := (hall u hmemu).symm
  rw [huv] at hu3
  omega

/-- C4: for every five-die roll with faces in 1..6 and `full_house` still
available, the possible-score table assigns `full_house` the value 25
exactly when some face value occurs exactly three times (and exactly one
value does so) and another face value occurs twice, and 0 otherwise; a
five-of-a-kind yields 0. -/
theorem C4_full_house (sc : YahtzeeScorecard) (dice : List Nat) (h5 : dice.length = 5)
    (hr : ∀ x ∈ dice, 1 ≤ x ∧ x ≤ 6)
    (ha : sc.is_category_available "full_house" = true) :
    (lookupPossible sc dice "full_house" = some 25 ↔ fullHouseSpec dice) ∧
    (¬ fullHouseSpec dice → lookupPossible sc dice "full_house" = some 0) ∧
    ((∃ v, dice.count v = 5) → lookupPossible sc dice "full_house" = some 0) := by
  have hl := lookupPossible_eq sc dice "full_house" h5
  rw [if_pos ha] at hl
  have hcat : catScore "full_house" dice =
      if ((countsOnly dice).contains 3 && (countsOnly dice).contains 2 &&
        ((countsOnly dice).count 3 == 1)) then 25 else 0 := by
    simp [catScore]
  rw [hcat] at hl
  have hiff := fullHouse_cond_iff dice h5 hr
  by_cases hcond : ((countsOnly dice).contains 3 && (countsOnly dice).contains 2 &&
      ((countsOnly dice).count 3 == 1)) = true
  · rw [if_pos hcond] at hl
    exact ⟨⟨fun _ => hiff.mp hcond, fun _ => hl⟩,
      fun hn => absurd (hiff.mp hcond) hn,
      fun hk => absurd (hiff.mp hcond) (fiveKind_not_fullHouse h5 hk)⟩
  · rw [if_neg hcond] at hl
    have hnp : ¬ fullHouseSpec dice := fun hp => hcond (hiff.mpr hp)
    refine ⟨⟨fun h25 => ?_, fun hp => absurd hp hnp⟩, fun _ => hl, fun _ => hl⟩
    rw [hl] at h25
    exact absurd h25 (by decide)

/-- C4 witness: `[3,3,3,6,6]` scores the full house at 25, and the
four-of-a-kind hand `[3,3,3,3,6]` scores 0. -/
theorem C4_witness :
    lookupPossible YahtzeeScorecard.init [3, 3, 3, 6, 6] "full_house" = some 25 ∧
    lookupPossible YahtzeeScorecard.init [3, 3, 3, 3, 6] "full_house" = some 0 := by
  constructor
  · refine ((C4_full_house YahtzeeScorecard.init [3, 3, 3, 6, 6] (by decide) (by decide)
      (by decide)).1).mpr ⟨3, by decide, ?_, 6, by decide, by decide⟩
    intro w hw
    have hm : w ∈ [3, 3, 3, 6, 6] := List.count_pos_iff.mp (by omega)
    simp only [List.mem_cons, List.not_mem_nil, or_false] at hm
    rcases hm with rfl | rfl | rfl | rfl | rfl
    any_goals rfl
    all_goals exact absurd hw (by decide)
  · refine (C4_full_house YahtzeeScorecard.init [3, 3, 3, 3, 6] (by decide) (by decide)
      (by decide)).2.1 ?_
    rintro ⟨v, hv3, -, -⟩
    have hm : v ∈ [3, 3, 3, 3, 6] := List.count_pos_iff.mp (by omega)
    simp only [List.mem_cons, List.not_mem_nil, or_false] at hm
    rcases hm with rfl | rfl | rfl | rfl | rfl
    all_goals exact absurd hv3 (by decide)

/-! ### Dice claims (C6, C7) -/

theorem roll_all_pos (d : YahtzeeDice) (σ : RNG) (h : 0 < d.rolls_remaining) :
    d.roll_all σ =
      (.ok ((List.range 5).foldl (fun ds i => ds.set i (σ i)) d.dice),
        { d with dice := (List.range 5).foldl (fun ds i => ds.set i (σ i)) d.dice,
                 rolls_remaining := d.rolls_remaining - 1 },
        σ.drop 5) := by
  unfold YahtzeeDice.roll_all
  rw [if_neg (by omega)]

theorem roll_all_exhausted (d : YahtzeeDice) (σ : RNG) (h : d.rolls_remaining ≤ 0) :
    d.roll_all σ = (.error "No rolls remaining this turn", d, σ) := by
  unfold YahtzeeDice.roll_all
  rw [if_pos h]

theorem roll_with_keep_rr (d : YahtzeeDice) (keep : List Bool) (σ : RNG) :
    (d.roll_with_keep keep σ).2.1.rolls_remaining = d.rolls_remaining ∨
      ((d.roll_with_keep keep σ).2.1.rolls_remaining = d.rolls_remaining - 1 ∧
        0 < d.rolls_remaining) := by
  unfold YahtzeeDice.roll_with_keep
  split_ifs with h1 h2 <;> simp <;> omega

theorem roll_specific_rr (d : YahtzeeDice) (idxs : List Int) (σ : RNG) :
    (d.roll_specific idxs σ).2.1.rolls_remaining = d.rolls_remaining ∨
      ((d.roll_specific idxs σ).2.1.rolls_remaining = d.rolls_remaining - 1 ∧
        0 < d.rolls_remaining) := by
  unfold YahtzeeDice.roll_specific
  split_ifs with h1
  · simp
  · rcases hloop : rollSpecificLoop d.dice idxs σ 0 with ⟨r, dice2, used2⟩
    cases r with
    | error e => simp only [hloop]; simp
    | ok u => simp only [hloop]; simp; omega

theorem roll_all_rr (d : YahtzeeDice) (σ : RNG) :
    (d.roll_all σ).2.1.rolls_remaining = d.rolls_remaining ∨
      ((d.roll_all σ).2.1.rolls_remaining = d.rolls_remaining - 1 ∧
        0 < d.rolls_remaining) := by
  unfold YahtzeeDice.roll_all
  split_ifs with h <;> simp <;> omega

/-- C6: `start_new_turn` restores the budget to 3 without touching the
faces; from there three `roll_all` calls succeed, each decrementing
`rolls_remaining` by exactly 1, and a fourth fails with the no-rolls
error leaving faces and budget unchanged; no roll operation ever makes
the budget negative. -/
theorem C6_roll_budget (d : YahtzeeDice) (σ : RNG) (keep : List Bool) (idxs : List Int)
    (hnn : 0 ≤ d.rolls_remaining) :
    (d.start_new_turn.dice = d.dice ∧ d.start_new_turn.rolls_remaining = 3) ∧
    (let s1 := d.start_new_turn.roll_all σ
     let s2 := s1.2.1.roll_all s1.2.2
     let s3 := s2.2.1.roll_all s2.2.2
     let s4 := s3.2.1.roll_all s3.2.2
     (∃ l, s1.1 = .ok l) ∧ s1.2.1.rolls_remaining = 2 ∧
     (∃ l, s2.1 = .ok l) ∧ s2.2.1.rolls_remaining = 1 ∧
     (∃ l, s3.1 = .ok l) ∧ s3.2.1.rolls_remaining = 0 ∧
     s4 = (.error "No rolls remaining this turn", s3.2.1, s3.2.2)) ∧
    (0 ≤ (d.roll_all σ).2.1.rolls_remaining ∧
     0 ≤ (d.roll_with_keep keep σ).2.1.rolls_remaining ∧
     0 ≤ (d.roll_specific idxs σ).2.1.rolls_remaining ∧
     0 ≤ d.start_new_turn.rolls_remaining) := by
  refine ⟨⟨rfl, rfl⟩, ?_, ?_, ?_, ?_, ?_⟩
  · simp only [YahtzeeDice.start_new_turn, YahtzeeDice.roll_all]
    norm_num
  · rcases roll_all_rr d σ with h | ⟨h, hp⟩ <;> omega
  · rcases roll_with_keep_rr d keep σ with h | ⟨h, hp⟩ <;> omega
  · rcases roll_specific_rr d idxs σ with h | ⟨h, hp⟩ <;> omega
  · exact (by norm_num : (0 : Int) ≤ 3)

/-- C6 witness: the budget facts evaluated on fresh dice and a constant
random stream. -/
theorem C6_witness :
    YahtzeeDice.init.start_new_turn.rolls_remaining = 3 ∧
    0 ≤ ((YahtzeeDice.init.roll_all (fun _ => 4)).2.1.rolls_remaining) :=
  ⟨(C6_roll_budget YahtzeeDice.init (fun _ => 4) [] [] (by decide)).1.2,
   (C6_roll_budget YahtzeeDice.init (fun _ => 4) [] [] (by decide)).2.2.1⟩

/-- The `for index in dice_indices` loop raises as soon as it reaches an
out-of-range index, whatever mutations happened before it. -/
theorem rollSpecificLoop_err (dice : List Nat) (idxs : List Int) (σ : RNG) (used : Nat)
    (hi : ∃ i ∈ idxs, i < 0 ∨ 4 < i) :
    ∃ e dice2 used2, rollSpecificLoop dice idxs σ used = (.error e, dice2, used2) := by
  induction idxs generalizing dice used with
  | nil => simp at hi
  | cons j rest ih =>
    unfold rollSpecificLoop
    split_ifs with hj
    · apply ih
      rcases hi with ⟨i, hmem, hrange⟩
      rcases List.mem_cons.mp hmem with rfl | hm
      · exact absurd hj (by omega)
      · exact ⟨i, hm, hrange⟩
    · exact ⟨_, _, _, rfl⟩

/-- C7 counterexample: `roll_specific [0, 5]` on fresh dice fails on the
out-of-range index 5, but die 0 has already been rerolled: the faces are
mutated by the rejected request. -/
theorem C7_counterexample :
    ((YahtzeeDice.init.roll_specific [0, 5] (fun _ => 2)).1 =
      .error "Dice index 5 out of range (0-4)") ∧
    (YahtzeeDice.init.roll_specific [0, 5] (fun _ => 2)).2.1.dice = [2, 1, 1, 1, 1] ∧
    (YahtzeeDice.init.roll_specific [0, 5] (fun _ => 2)).2.1.dice ≠
      YahtzeeDice.init.dice :=
  ⟨rfl, rfl, by decide⟩

/-- C7 (amended): a keep-mask whose length is not 5 is rejected with no
mutation at all; a roll naming an out-of-range die index fails with
`rolls_remaining` unchanged, but dice positions processed before the
offending index have already been rerolled. -/
theorem C7_invalid_input (d : YahtzeeDice) (keep : List Bool) (idxs : List Int) (σ : RNG)
    (hk : keep.length ≠ 5) (hi : ∃ i ∈ idxs, i < 0 ∨ 4 < i) :
    (d.roll_with_keep keep σ =
      (.error "keep_dice must have exactly 5 boolean values", d, σ)) ∧
    ((∃ e, (d.roll_specific idxs σ).1 = .error e) ∧
      (d.roll_specific idxs σ).2.1.rolls_remaining = d.rolls_remaining) := by
  constructor
  · unfold YahtzeeDice.roll_with_keep
    rw [if_pos hk]
  · unfold YahtzeeDice.roll_specific
    split_ifs with h0
    · exact ⟨⟨_, rfl⟩, by trivial⟩
    · obtain ⟨e, dice2, used2, hloop⟩ := rollSpecificLoop_err d.dice idxs σ 0 hi
      simp only [hloop]
      exact ⟨⟨e, rfl⟩, by trivial⟩

/-- C7 witness: the amended behaviour at fresh dice, an empty mask and the
index list `[0, 5]`. -/
theorem C7_witness :
    (YahtzeeDice.init.roll_with_keep [] (fun _ => 2) =
      (.error "keep_dice must have exactly 5 boolean values", YahtzeeDice.init,
        (fun _ => 2))) ∧
    ((∃ e, (YahtzeeDice.init.roll_specific [0, 5] (fun _ => 2)).1 = .error e) ∧
      (YahtzeeDice.init.roll_specific [0, 5] (fun _ => 2)).2.1.rolls_remaining =
        YahtzeeDice.init.rolls_remaining) :=
  C7_invalid_input YahtzeeDice.init [] [0, 5] (fun _ => 2) (by decide) (by decide)

/-! ### Fresh games and the implicit first roll (C10) -/

theorem foldl_set5 (l : List Nat) (h : l.length = 5) (σ : RNG) :
    (List.range 5).foldl (fun ds i => ds.set i (σ i)) l = [σ 0, σ 1, σ 2, σ 3, σ 4] := by
  rcases l with _ | ⟨a, _ | ⟨b, _ | ⟨c, _ | ⟨d, _ | ⟨e, _ | ⟨f, t⟩⟩⟩⟩⟩⟩ <;> simp at h
  rfl

/-- C10: a freshly created player game (as room create and join build it)
has all five faces equal to 1, three rolls remaining, turn number 1, and
is not complete — no initial roll happens at creation; the implicit first
roll of a turn happens exactly after a successful score commit that does
not finish the game, leaving a freshly rolled hand with two rolls left. -/
theorem C10_fresh_game (name code c : String) (room : GameState) (g g2 : YahtzeeGame)
    (σ σ2 : RNG) (hlen : g.dice.dice.length = 5)
    (hscore : g.score_category c σ = (.ok true, g2, σ2))
    (hnc : g2.game_complete = false) :
    (YahtzeeGame.init name).dice.dice = [1, 1, 1, 1, 1] ∧
    (YahtzeeGame.init name).dice.rolls_remaining = 3 ∧
    (YahtzeeGame.init name).current_turn = 1 ∧
    (YahtzeeGame.init name).game_complete = false ∧
    (create_room code name).scores = [(name, YahtzeeGame.init name)] ∧
    (join_room room name).scores = room.scores ++ [(name, YahtzeeGame.init name)] ∧
    (g2.dice.rolls_remaining = 2 ∧ g2.dice.dice = [σ 0, σ 1, σ 2, σ 3, σ 4]) := by
  refine ⟨rfl, rfl, rfl, rfl, rfl, rfl, ?_⟩
  unfold YahtzeeGame.score_category at hscore
  by_cases hgc : g.game_complete
  · rw [if_pos hgc] at hscore
    simp at hscore
  rw [if_neg hgc] at hscore
  rcases hsc : g.scorecard.score_category c g.dice.get_dice with e | ⟨success, sc2⟩
  · simp only [hsc] at hscore
    simp at hscore
  simp only [hsc] at hscore
  cases success with
  | false => simp at hscore
  | true =>
    simp only [if_true] at hscore
    split_ifs at hscore with hdone
    · have h2 : g2.game_complete = true := by
        have := congrArg (fun p => p.2.1.game_complete) hscore
        simpa using this.symm
      rw [h2] at hnc
      exact Bool.noConfusion hnc
    · simp only [YahtzeeGame.start_new_turn] at hscore
      rw [if_neg (by simpa using hgc)] at hscore
      simp only [YahtzeeDice.start_new_turn] at hscore
      rw [roll_all_pos _ σ (by norm_num)] at hscore
      constructor
      · have := congrArg (fun p => p.2.1.dice.rolls_remaining) hscore
        simp at this
        omega
      · have := congrArg (fun p => p.2.1.dice.dice) hscore
        simp at this
        rw [← this, foldl_set5 _ hlen]

/-- C10 witness: scoring `chance` on a fresh game succeeds and triggers
the implicit first roll of the next turn. -/
theorem C10_witness :
    ((YahtzeeGame.init "A").score_category "chance"
        (fun _ => 4)).2.1.dice.rolls_remaining = 2 ∧
    ((YahtzeeGame.init "A").score_category "chance"
        (fun _ => 4)).2.1.dice.dice = [4, 4, 4, 4, 4] := by
  have h := C10_fresh_game "A" "1234" "chance" (GameState.init "1234")
    (YahtzeeGame.init "A")
    ((YahtzeeGame.init "A").score_category "chance" (fun _ => 4)).2.1
    (fun _ => 4)
    ((YahtzeeGame.init "A").score_category "chance" (fun _ => 4)).2.2
    (by decide) rfl rfl
  exact h.2.2.2.2.2.2

/-! ### Server dispatch machinery (C1, C2, C5) -/

theorem lookup_mem {α : Type} {l : List (String × α)} {a : String} {b : α}
    (h : l.lookup a = some b) : (a, b) ∈ l := by
  induction l with
  | nil => simp [List.lookup] at h
  | cons p t ih =>
    obtain ⟨k, v⟩ := p
    rw [List.lookup_cons] at h
    rcases hak : a == k with _ | _
    · rw [hak] at h
      exact List.mem_cons_of_mem _ (ih h)
    · rw [hak] at h
      obtain rfl := Option.some.injEq .. ▸ h
      have : a = k := beq_iff_eq.mp hak
      subst this
      exact List.mem_cons_self _ _

/-- Rolling never changes a game's completion flag. -/
theorem roll_dice_complete (g : YahtzeeGame) (keep : Option (List Bool)) (σ : RNG) :
    (g.roll_dice keep σ).2.1.game_complete = g.game_complete := by
  unfold YahtzeeGame.roll_dice
  split_ifs with hgc
  · rfl
  cases keep with
  | none =>
    rcases hr : g.dice.roll_all σ with ⟨r, d2, σ2⟩
    simp only [hr]
  | some k =>
    rcases hr : g.dice.roll_with_keep k σ with ⟨r, d2, σ2⟩
    simp only [hr]

/-- Scoring on a completed game is a rejected no-op. -/
theorem score_complete_noop (g : YahtzeeGame) (c : String) (σ : RNG)
    (hgc : g.game_complete = true) :
    g.score_category c σ = (.ok false, g, σ) := by
  unfold YahtzeeGame.score_category
  rw [if_pos hgc]

/-- With a well-formed hand, a game-level score never raises. -/
theorem game_score_ok (g : YahtzeeGame) (c : String) (σ : RNG)
    (hlen : g.dice.dice.length = 5) :
    ∃ b g2 σ2, g.score_category c σ = (.ok b, g2, σ2) := by
  unfold YahtzeeGame.score_category
  split_ifs with hgc
  · exact ⟨false, g, σ, rfl⟩
  rw [score_category_eq g.scorecard c g.dice.get_dice hlen]
  by_cases ha : g.scorecard.is_category_available c
  · rw [if_pos ha]
    dsimp only
    split_ifs with htrue hdone
    · exact ⟨true, _, _, rfl⟩
    · simp only [YahtzeeGame.start_new_turn]
      rw [if_neg (by simpa using hgc)]
      simp only [YahtzeeDice.start_new_turn]
      rw [roll_all_pos _ σ (by exact (by norm_num : (0 : Int) < 3))]
      exact ⟨true, _, _, rfl⟩
    · exact absurd rfl htrue
  · rw [if_neg ha]
    exact ⟨false, _, _, rfl⟩


/-- Characterisation of a dispatched `score` command for a present player
with a well-formed hand. -/
theorem handle_score_eq (room : GameState) (player cat : String) (keep : List Bool)
    (σ : RNG) (g : YahtzeeGame) (hg : room.scores.lookup player = some g)
    (hlen : g.dice.dice.length = 5) :
    ∃ b g2 σ2, g.score_category cat σ = (.ok b, g2, σ2) ∧
      handle_command room player "score" keep cat σ =
        (.ok (), scoreDispatchResult room player g2, σ2) := by
  obtain ⟨b, g2, σ2, hs⟩ := game_score_ok g cat σ hlen
  refine ⟨b, g2, σ2, hs, ?_⟩
  unfold handle_command
  simp only [hg]
  rw [if_neg (by decide), if_pos (by decide)]
  simp only [hs]
  rfl

/-- Updating a key that is absent changes nothing. -/
theorem updateScores_not_mem (t : List (String × YahtzeeGame)) (player : String)
    (g2 : YahtzeeGame) (h : player ∉ t.map Prod.fst) :
    updateScores t player g2 = t := by
  induction t with
  | nil => rfl
  | cons p t2 ih =>
    simp only [List.map_cons, List.mem_cons, not_or] at h
    obtain ⟨h1, h2⟩ := h
    unfold updateScores
    simp only [List.map_cons]
    rw [if_neg (by simpa using fun hEq => h1 (by rw [← hEq]))]
    have := ih h2
    unfold updateScores at this
    rw [this]

/-- Replacing a player's game with one of equal completion status does not
change whether every game is complete. -/
theorem allDone_update (scores : List (String × YahtzeeGame)) (player : String)
    (g g2 : YahtzeeGame) (hg : scores.lookup player = some g)
    (hnodup : (scores.map Prod.fst).Nodup) (hc : g2.game_complete = g.game_complete) :
    allDone (updateScores scores player g2) = allDone scores := by
  induction scores with
  | nil => rfl
  | cons p t ih =>
    obtain ⟨k, gk⟩ := p
    rw [List.lookup_cons] at hg
    simp only [List.map_cons, List.nodup_cons] at hnodup
    obtain ⟨hknot, hnd⟩ := hnodup
    unfold updateScores
    simp only [List.map_cons]
    rcases hpk : player == k with _ | _
    · rw [hpk] at hg
      rw [if_neg (by simpa using fun hEq => by rw [hEq] at hpk; simp at hpk)]
      have := ih hg hnd
      unfold updateScores at this
      simp only [allDone, List.all_cons] at this ⊢
      rw [this]
    · rw [hpk] at hg
      obtain rfl : gk = g := by simpa using hg
      obtain rfl : player = k := by simpa using hpk
      rw [if_pos (by simp)]
      have hupd := updateScores_not_mem t player g2 hknot
      unfold updateScores at hupd
      rw [hupd]
      simp only [allDone, List.all_cons, hc]


theorem firstArgmax_isSome (l : List (String × Int)) (h : l ≠ []) :
    ∃ k, firstArgmax l = some k := by
  induction l with
  | nil => exact absurd rfl h
  | cons p t ih =>
    obtain ⟨k, v⟩ := p
    unfold firstArgmax
    split_ifs with hall
    · exact ⟨k, rfl⟩
    · refine ih fun ht => ?_
      rw [ht] at hall
      simp at hall

theorem pyMaxKeyGo_eq (t : List (String × Int)) : ∀ (bk : String) (bv : Int),
    pyMaxKeyGo bk bv t =
      if t.all (fun kv => kv.2 ≤ bv) then bk else (firstArgmax t).getD bk := by
  induction t with
  | nil => intro bk bv; simp [pyMaxKeyGo]
  | cons p t ih =>
    obtain ⟨k, v⟩ := p
    intro bk bv
    unfold pyMaxKeyGo firstArgmax
    simp only [List.all_cons, Bool.and_eq_true, decide_eq_true_eq]
    by_cases hbv : bv < v
    · rw [if_pos hbv, ih k v, if_neg (by omega ∘ And.left)]
      by_cases hall : t.all (fun kv => kv.2 ≤ v) = true
      · rw [if_pos hall, if_pos hall]
        simp
      · rw [if_neg hall, if_neg hall]
        obtain ⟨k2, hk2⟩ := firstArgmax_isSome t (by rintro rfl; simp at hall)
        rw [hk2]
        rfl
    · rw [if_neg hbv, ih bk bv]
      by_cases htall : t.all (fun kv => kv.2 ≤ bv) = true
      · rw [if_pos htall, if_pos ⟨by omega, htall⟩]
      · rw [if_neg htall, if_neg (fun hand => htall hand.2)]
        have hvall : ¬ t.all (fun kv => kv.2 ≤ v) = true := by
          intro hy
          refine htall ?_
          simp only [List.all_eq_true, decide_eq_true_eq] at hy ⊢
          exact fun kv hm => le_trans (hy kv hm) (by omega)
        rw [if_neg hvall]

/-- Python's first-wins `max(scores, key=scores.get)` computes exactly the
spec's earliest-maximal-total winner. -/
theorem pyMaxKey_eq_firstArgmax (l : List (String × Int)) :
    pyMaxKey l = firstArgmax l := by
  cases l with
  | nil => rfl
  | cons p t =>
    obtain ⟨k, v⟩ := p
    show some (pyMaxKeyGo k v t) =
      if t.all (fun kv => kv.2 ≤ v) then some k else firstArgmax t
    rw [pyMaxKeyGo_eq]
    by_cases hall : t.all (fun kv => kv.2 ≤ v) = true
    · rw [if_pos hall, if_pos hall]
    · rw [if_neg hall, if_neg hall]
      obtain ⟨k2, hk2⟩ := firstArgmax_isSome t (by rintro rfl; simp at hall)
      rw [hk2]
      rfl

theorem scoreDispatchResult_turn (room : GameState) (player : String) (g2 : YahtzeeGame) :
    (scoreDispatchResult room player g2).turn_index =
      (room.turn_index + 1) % (room.players.length : Int) := by
  unfold scoreDispatchResult
  dsimp only [GameState.next_turn]
  split_ifs <;> rfl

theorem scoreDispatchResult_scores (room : GameState) (player : String) (g2 : YahtzeeGame) :
    (scoreDispatchResult room player g2).scores =
      updateScores room.scores player g2 := by
  unfold scoreDispatchResult
  dsimp only [GameState.next_turn]
  split_ifs <;> rfl

theorem scoreDispatchResult_done (room : GameState) (player : String) (g2 : YahtzeeGame)
    (h : allDone (updateScores room.scores player g2) = true) :
    (scoreDispatchResult room player g2).winner =
      pyMaxKey (totals (updateScores room.scores player g2)) ∧
    (scoreDispatchResult room player g2).final_scores =
      totals (updateScores room.scores player g2) := by
  unfold scoreDispatchResult
  dsimp only [GameState.next_turn]
  rw [if_pos h]
  exact ⟨rfl, rfl⟩

theorem scoreDispatchResult_not_done (room : GameState) (player : String)
    (g2 : YahtzeeGame) (h : allDone (updateScores room.scores player g2) = false) :
    (scoreDispatchResult room player g2).winner = room.winner ∧
    (scoreDispatchResult room player g2).final_scores = room.final_scores := by
  unfold scoreDispatchResult
  dsimp only [GameState.next_turn]
  rw [if_neg (fun hc => Bool.noConfusion (h.symm.trans hc))]
  exact ⟨rfl, rfl⟩

theorem pyMaxKey_isSome (l : List (String × Int)) (h : l ≠ []) :
    ∃ k, pyMaxKey l = some k := by
  cases l with
  | nil => exact absurd rfl h
  | cons p t =>
    obtain ⟨k, v⟩ := p
    exact ⟨pyMaxKeyGo k v t, rfl⟩

theorem updateScores_ne_nil {scores : List (String × YahtzeeGame)} {player : String}
    {g2 : YahtzeeGame} (h : scores ≠ []) : updateScores scores player g2 ≠ [] := by
  unfold updateScores
  simpa using h

theorem allDone_mem {scores : List (String × YahtzeeGame)} (h : allDone scores = true)
    {p : String × YahtzeeGame} (hm : p ∈ scores) : p.2.game_complete = true := by
  unfold allDone at h
  rw [List.all_eq_true] at h
  exact h p hm

/-- A dispatched `roll` stores the rolled game back and touches nothing
else of the room. -/
theorem handle_roll_eq (room : GameState) (player cat : String) (keep : List Bool)
    (σ : RNG) (g : YahtzeeGame) (hg : room.scores.lookup player = some g) :
    ∃ r g2 σ2, g.roll_dice (some keep) σ = (r, g2, σ2) ∧
      (handle_command room player "roll" keep cat σ).2.1 =
        { room with scores := updateScores room.scores player g2 } := by
  rcases hr : g.roll_dice (some keep) σ with ⟨r, g2, σ2⟩
  refine ⟨r, g2, σ2, rfl, ?_⟩
  unfold handle_command
  simp only [hg]
  rw [if_pos (by decide)]
  simp only [hr]
  cases r <;> rfl

/-- A command that is neither `roll` nor `score` leaves the room as it
was. -/
theorem handle_other (room : GameState) (player command cat : String) (keep : List Bool)
    (σ : RNG) (h1 : command ≠ "roll") (h2 : command ≠ "score") :
    (handle_command room player command keep cat σ).2.1 = room := by
  unfold handle_command
  rcases hl : room.scores.lookup player with _ | g
  · rfl
  · dsimp only
    rw [if_neg (by simpa using h1), if_neg (by simpa using h2)]

/-- A command naming an unknown player dies with a `KeyError`, leaving the
room as it was. -/
theorem handle_missing (room : GameState) (player command cat : String)
    (keep : List Bool) (σ : RNG) (h : room.scores.lookup player = none) :
    handle_command room player command keep cat σ = (.error "KeyError", room, σ) := by
  unfold handle_command
  simp only [h]

/-! ### Claims about the coordinator (C1, C2, C5) -/

/-- C1 counterexample: in a two-player room whose turn holder is "A"
(turn_index 0), a roll command issued for "B" is not rejected — it is
dispatched to B's dice, which change from all ones to all fours — and a
score command issued for "B" is accepted — it is dispatched to B's game,
commits B's `chance`, and advances turn_index — and two score commands
for the two different players are both accepted, advancing turn_index
twice, not once. -/
theorem C1_counterexample :
    (join_room (create_room "1234" "A") "B").turn_index = 0 ∧
    (join_room (create_room "1234" "A") "B").players.get? 0 = some "A" ∧
    (((join_room (create_room "1234" "A") "B").scores.lookup "B").map
      (fun g => g.dice.dice) = some [1, 1, 1, 1, 1]) ∧
    ((handle_command (join_room (create_room "1234" "A") "B") "B" "roll"
      [false, false, false, false, false] "chance" (fun _ => 4)).1 = .ok ()) ∧
    (((handle_command (join_room (create_room "1234" "A") "B") "B" "roll"
      [false, false, false, false, false] "chance" (fun _ => 4)).2.1.scores.lookup
      "B").map (fun g => g.dice.dice) = some [4, 4, 4, 4, 4]) ∧
    ((handle_command (join_room (create_room "1234" "A") "B") "B" "roll"
      [false, false, false, false, false] "chance" (fun _ => 4)).2.1.turn_index = 0) ∧
    ((handle_command (join_room (create_room "1234" "A") "B") "B" "score" [] "chance"
      (fun _ => 4)).1 = .ok ()) ∧
    (((handle_command (join_room (create_room "1234" "A") "B") "B" "score" [] "chance"
      (fun _ => 4)).2.1.scores.lookup "B").map (fun g => g.scorecard.chance) =
      some (some 5)) ∧
    ((handle_command (join_room (create_room "1234" "A") "B") "B" "score" [] "chance"
      (fun _ => 4)).2.1.turn_index = 1) ∧
    (((handle_command (join_room (create_room "1234" "A") "B") "A" "score" [] "chance"
      (fun _ => 4)).2.1.scores.lookup "A").map (fun g => g.scorecard.chance) =
      some (some 5)) ∧
    ((handle_command
        (handle_command (join_room (create_room "1234" "A") "B") "A" "score" [] "chance"
          (fun _ => 4)).2.1
        "B" "score" [] "chance"
        (handle_command (join_room (create_room "1234" "A") "B") "A" "score" [] "chance"
          (fun _ => 4)).2.2).2.1.turn_index = 0) ∧
    (((handle_command
        (handle_command (join_room (create_room "1234" "A") "B") "A" "score" [] "chance"
          (fun _ => 4)).2.1
        "B" "score" [] "chance"
        (handle_command (join_room (create_room "1234" "A") "B") "A" "score" [] "chance"
          (fun _ => 4)).2.2).2.1.scores.lookup "B").map (fun g => g.scorecard.chance) =
      some (some 5)) :=
  ⟨rfl, rfl, rfl, rfl, rfl, rfl, rfl, rfl, rfl, rfl, rfl, rfl⟩

/-- C1 (amended): the coordinator performs no turn-order validation — a
roll or score command naming any player present in the room is
dispatched to that player's own game whatever `turn_index` holds: a roll
command stores the named player's rolled dice back into the room and
never changes `turn_index`, and a score command is processed, mutates
the named player's game, and advances `turn_index` once per score
command; so two score commands for the two different players are both
dispatched, advancing it twice. -/
theorem C1_no_turn_validation (room : GameState) (player cat : String)
    (keep : List Bool) (σ : RNG) (g : YahtzeeGame)
    (hg : room.scores.lookup player = some g) (hlen : g.dice.dice.length = 5) :
    (∀ r g2r σ2r, g.roll_dice (some keep) σ = (r, g2r, σ2r) →
      (handle_command room player "roll" keep cat σ).2.1.scores =
        updateScores room.scores player g2r ∧
      (handle_command room player "roll" keep cat σ).2.1.turn_index =
        room.turn_index) ∧
    ∃ b g2 σ2, g.score_category cat σ = (.ok b, g2, σ2) ∧
      (handle_command room player "score" keep cat σ).1 = .ok () ∧
      (handle_command room player "score" keep cat σ).2.1.scores =
        updateScores room.scores player g2 ∧
      (handle_command room player "score" keep cat σ).2.1.turn_index =
        (room.turn_index + 1) % (room.players.length : Int) := by
  constructor
  · intro r g2r σ2r hr
    obtain ⟨r2, g2r2, σ2r2, hr2, hh2⟩ := handle_roll_eq room player cat keep σ g hg
    have hsame : g2r2 = g2r := congrArg (fun p => p.2.1) (hr2.symm.trans hr)
    rw [hh2, hsame]
    exact ⟨rfl, rfl⟩
  · obtain ⟨b, g2, σ2, hs, hh⟩ := handle_score_eq room player cat keep σ g hg hlen
    refine ⟨b, g2, σ2, hs, ?_, ?_, ?_⟩
    · rw [hh]
    · rw [hh]
      exact scoreDispatchResult_scores room player g2
    · rw [hh]
      exact scoreDispatchResult_turn room player g2

/-- C1 witness: the amended dispatch behaviour for the non-turn-holding
player "B" of a fresh two-player room, for a roll and for a score. -/
theorem C1_witness :
    ((handle_command (join_room (create_room "1234" "A") "B") "B" "roll"
        [false, false, false, false, false] "chance" (fun _ => 4)).2.1.scores =
      updateScores (join_room (create_room "1234" "A") "B").scores "B"
        ((YahtzeeGame.init "B").roll_dice
          (some [false, false, false, false, false]) (fun _ => 4)).2.1 ∧
     (handle_command (join_room (create_room "1234" "A") "B") "B" "roll"
        [false, false, false, false, false] "chance" (fun _ => 4)).2.1.turn_index =
      (join_room (create_room "1234" "A") "B").turn_index) ∧
    (∃ b g2 σ2,
      (YahtzeeGame.init "B").score_category "chance" (fun _ => 4) = (.ok b, g2, σ2) ∧
      (handle_command (join_room (create_room "1234" "A") "B") "B" "score"
        [false, false, false, false, false] "chance" (fun _ => 4)).1 = .ok () ∧
      (handle_command (join_room (create_room "1234" "A") "B") "B" "score"
        [false, false, false, false, false] "chance" (fun _ => 4)).2.1.scores =
        updateScores (join_room (create_room "1234" "A") "B").scores "B" g2 ∧
      (handle_command (join_room (create_room "1234" "A") "B") "B" "score"
        [false, false, false, false, false] "chance" (fun _ => 4)).2.1.turn_index =
        ((join_room (create_room "1234" "A") "B").turn_index + 1) %
          (((join_room (create_room "1234" "A") "B").players.length : Nat) : Int)) :=
  ⟨(C1_no_turn_validation (join_room (create_room "1234" "A") "B") "B" "chance"
      [false, false, false, false, false] (fun _ => 4) (YahtzeeGame.init "B")
      rfl rfl).1 _ _ _ rfl,
   (C1_no_turn_validation (join_room (create_room "1234" "A") "B") "B" "chance"
      [false, false, false, false, false] (fun _ => 4) (YahtzeeGame.init "B")
      rfl rfl).2⟩

/-- C2 counterexample: a score command whose category commit fails (the
category "bogus" does not exist, so the player's game is left untouched,
still on turn 1) nevertheless advances turn_index from 0 to 1. -/
theorem C2_counterexample :
    (join_room (create_room "1234" "A") "B").turn_index = 0 ∧
    ((handle_command (join_room (create_room "1234" "A") "B") "A" "score" [] "bogus"
      (fun _ => 4)).2.1.scores.lookup "A" = some (YahtzeeGame.init "A")) ∧
    ((handle_command (join_room (create_room "1234" "A") "B") "A" "score" [] "bogus"
      (fun _ => 4)).1 = .ok ()) ∧
    ((handle_command (join_room (create_room "1234" "A") "B") "A" "score" [] "bogus"
      (fun _ => 4)).2.1.turn_index = 1) :=
  ⟨rfl, rfl, rfl, rfl⟩

/-- C2 (amended): turn_index changes only through a score command — a
roll never changes it, an unknown command or a command naming an absent
player leaves the room untouched — but a dispatched score command for a
present player advances turn_index by one (mod the player count)
regardless of whether the category commit succeeded. -/
theorem C2_turn_advance (room : GameState) (player cat command : String)
    (keep : List Bool) (σ : RNG) :
    ((handle_command room player "roll" keep cat σ).2.1.turn_index =
      room.turn_index) ∧
    (∀ g, room.scores.lookup player = some g → g.dice.dice.length = 5 →
      (handle_command room player "score" keep cat σ).2.1.turn_index =
        (room.turn_index + 1) % (room.players.length : Int)) ∧
    (command ≠ "roll" → command ≠ "score" →
      (handle_command room player command keep cat σ).2.1 = room) ∧
    (room.scores.lookup player = none →
      (handle_command room player command keep cat σ).2.1 = room) := by
  refine ⟨?_, ?_, handle_other room player command cat keep σ, ?_⟩
  · rcases hl : room.scores.lookup player with _ | g
    · rw [handle_missing room player "roll" cat keep σ hl]
    · obtain ⟨r, g2, σ2, -, hh⟩ := handle_roll_eq room player cat keep σ g hl
      rw [hh]
  · intro g hg hlen
    obtain ⟨b, g2, σ2, -, hh⟩ := handle_score_eq room player cat keep σ g hg hlen
    rw [hh]
    exact scoreDispatchResult_turn room player g2
  · intro h
    rw [handle_missing room player command cat keep σ h]

/-- C2 witness: in a fresh two-player room, a roll for "A" leaves
turn_index at 0 and a score for "A" advances it to 1. -/
theorem C2_witness :
    ((handle_command (join_room (create_room "1234" "A") "B") "A" "roll"
      [true, true, true, true, true] "chance" (fun _ => 4)).2.1.turn_index =
      (join_room (create_room "1234" "A") "B").turn_index) ∧
    ((handle_command (join_room (create_room "1234" "A") "B") "A" "score" [] "chance"
      (fun _ => 4)).2.1.turn_index =
      ((join_room (create_room "1234" "A") "B").turn_index + 1) %
        (((join_room (create_room "1234" "A") "B").players.length : Nat) : Int)) :=
  ⟨(C2_turn_advance (join_room (create_room "1234" "A") "B") "A" "chance" "none"
      [true, true, true, true, true] (fun _ => 4)).1,
   (C2_turn_advance (join_room (create_room "1234" "A") "B") "A" "chance" "none"
      [] (fun _ => 4)).2.1 (YahtzeeGame.init "A") rfl rfl⟩

/-- C5: provided the room invariant "winner is set iff all games are
complete" holds before a command, it holds after it; and when a score
command leaves every game complete, the room's winner is the earliest
player (join order) with the maximal grand total and `final_scores` maps
each player to their grand total. -/
theorem C5_winner (room : GameState) (player cat command : String) (keep : List Bool)
    (σ : RNG) (g : YahtzeeGame)
    (hg : room.scores.lookup player = some g)
    (hlen : g.dice.dice.length = 5)
    (hnodup : (room.scores.map Prod.fst).Nodup)
    (hinv : room.winner.isSome = true ↔ allDone room.scores = true) :
    ((handle_command room player command keep cat σ).2.1.winner.isSome = true ↔
      allDone ((handle_command room player command keep cat σ).2.1.scores) = true) ∧
    (allDone ((handle_command room player "score" keep cat σ).2.1.scores) = true →
      (handle_command room player "score" keep cat σ).2.1.winner =
        firstArgmax (totals ((handle_command room player "score" keep cat σ).2.1.scores)) ∧
      (handle_command room player "score" keep cat σ).2.1.final_scores =
        ((handle_command room player "score" keep cat σ).2.1.scores).map
          (fun p => (p.1, p.2.scorecard.calculate_grand_total))) := by
  have hSNE : room.scores ≠ [] := by
    rintro h
    rw [h] at hg
    simp [List.lookup] at hg
  obtain ⟨b, g2, σ2, hs, hh⟩ := handle_score_eq room player cat keep σ g hg hlen
  constructor
  · by_cases hc1 : command = "roll"
    · subst hc1
      obtain ⟨r, g2r, σ2r, hr, hhr⟩ := handle_roll_eq room player cat keep σ g hg
      rw [hhr]
      dsimp only
      have hcomp : g2r.game_complete = g.game_complete := by
        have := roll_dice_complete g (some keep) σ
        rw [hr] at this
        exact this
      rw [allDone_update room.scores player g g2r hg hnodup hcomp]
      exact hinv
    by_cases hc2 : command = "score"
    · subst hc2
      rw [hh]
      dsimp only
      rw [scoreDispatchResult_scores]
      rcases hdall : allDone (updateScores room.scores player g2) with _ | _
      · obtain ⟨hw, -⟩ := scoreDispatchResult_not_done room player g2 hdall
        rw [hw]
        constructor
        · intro hws
          exfalso
          have hall : allDone room.scores = true := hinv.mp hws
          have hgc : g.game_complete = true := allDone_mem hall (lookup_mem hg)
          have hnoop := score_complete_noop g cat σ hgc
          have htrip := hnoop.symm.trans hs
          have hg2 : g = g2 := congrArg (fun p => p.2.1) htrip
          rw [← hg2, allDone_update room.scores player g g hg hnodup rfl, hall] at hdall
          exact Bool.noConfusion hdall
        · intro h
          exact Bool.noConfusion h
      · obtain ⟨hw, -⟩ := scoreDispatchResult_done room player g2 hdall
        rw [hw]
        obtain ⟨k, hk⟩ := pyMaxKey_isSome (totals (updateScores room.scores player g2))
          (by simpa [totals] using updateScores_ne_nil hSNE)
        rw [hk]
        simp
    · rw [handle_other room player command cat keep σ hc1 hc2]
      exact hinv
  · rw [hh]
    dsimp only
    rw [scoreDispatchResult_scores]
    intro hdone
    obtain ⟨hw, hf⟩ := scoreDispatchResult_done room player g2 hdone
    rw [hw, hf, pyMaxKey_eq_firstArgmax]
    exact ⟨rfl, rfl⟩


/-- C5 witness: when "B" commits the last open category, every game is
complete and the winner is computed — "B", whose total 5 beats 0. -/
theorem C5_witness :
    (handle_command roomLast "B" "score" [] "chance" (fun _ => 4)).2.1.winner =
      some "B" ∧
    (handle_command roomLast "B" "score" [] "chance" (fun _ => 4)).2.1.final_scores =
      [("A", 0), ("B", 5)] := by
  have h := C5_winner roomLast "B" "chance" "score" [] (fun _ => 4) gameB_last rfl rfl
    (by decide) (by decide)
  obtain ⟨hw, hf⟩ := h.2 (by decide)
  rw [hw, hf]
  exact ⟨rfl, rfl⟩

end Yahtzee
